import Mathlib

/-!
Shallow embedding of `graphlearn/python/nn/tf/data/dataset.py` (the tf `Dataset`
adapter): schema declaration (`_data_types_and_shapes`,
`_raw_flatten_types_and_shapes`, `_batchgraph_types_and_shapes`,
`_batchgraph_flatten_types_and_shapes`), the two flatten generators,
`get_batchgraph` and `get_egograph`.  External collaborators (the GSL dag, the
raw dataset's mask resolver and value extraction, batch-graph flattening, the
`SubKeys` role constants) are modelled as interface data; definitions marked
`Modelled from the spec:` stand for repository code that is not part of this
module.
-/

namespace GraphLearn

/-- Tensor element types used by the declarations (tf.int32, tf.int64, tf.float32, tf.string). -/
inductive TFType
  | int32
  | int64
  | float32
  | string
  deriving DecidableEq

/-- A tensor shape: a list of dimensions, `none` standing for an unbound (None) dimension. -/
abbrev Shape := List (Option Nat)

/-- Per-type attribute layout metadata (the graphlearn `Decoder` interface used here:
counts of int/float/string attributes). -/
structure Decoder where
  int_attr_num : Nat
  float_attr_num : Nat
  string_attr_num : Nat
  deriving DecidableEq

/-- numpy-style boolean mask selection `arr[mask]`: keeps entries whose mask bit is true,
in order (truncating at the shorter list). -/
def maskFilter {α : Type _} : List α → List Bool → List α
  | [], _ => []
  | _ :: _, [] => []
  | x :: xs, b :: bs => if b then x :: maskFilter xs bs else maskFilter xs bs

/-- The mask-resolver interface (`RawDataset.get_mask(decoder, is_edge, is_sparse)`):
returns the feature mask (5 slots), id mask (2 slots) and sparse mask (3 slots). -/
abbrev MaskFn := Decoder → Bool → Bool → List Bool × List Bool × List Bool

/-- One node of the GSL query dag, as seen through the query-collaborator interface:
alias-keyed identity, node/edge type name, decoder, whether it is a
`TraverseEdgeDagNode`, whether it is sparse, the last entry of its shape
(`node.shape[-1]`, the declared neighbor count), and its positive/negative
downstream aliases. -/
structure DagNode where
  alias_name : String
  ntype : String
  decoder : Decoder
  is_edge : Bool
  sparse : Bool
  shape_last : Nat
  pos_downstreams : List String
  neg_downstreams : List String

/-- The GSL query dag interface: alias resolution, node/edge type enumerations,
per-node-type decoder lookup (`dag.graph.get_node_decoder`), and the alias list. -/
structure Dag where
  get_node : String → DagNode
  node_types : List String
  edge_types : List String
  get_node_decoder : String → Decoder
  list_alias : List String

/-- Modelled from the spec: the three recognized role keys (`SubKeys.POS_SRC`), declared
in the raw-dataset module outside this file; only their identities matter. -/
def SubKeys.POS_SRC : String := "pos_src"

/-- Modelled from the spec: the positive-destination role key (`SubKeys.POS_DST`). -/
def SubKeys.POS_DST : String := "pos_dst"

/-- Modelled from the spec: the negative-destination role key (`SubKeys.NEG_DST`). -/
def SubKeys.NEG_DST : String := "neg_dst"

/-- The state of one `Dataset` instance: the query dag, whether an `induce_func` was
supplied, the additional-data spec (key, type, shape) in declaration order, the
resolved edge-type list, the raw dataset's mask-key enumeration order, the mask
resolver, and the flat tensor tuple `self._values` pulled from the iterator. -/
structure Dataset (α : Type) where
  dag : Dag
  has_induce_func : Bool
  additional_spec : List (String × TFType × Shape)
  edge_types : List String
  rds_mask_keys : List String
  get_mask : MaskFn
  values : List α

/-- Constructor logic of `Dataset.__init__`: additional keys default to empty when no
spec is given, and `edge_types` falls back to the dag's edge types when not supplied. -/
def mkDataset {α : Type} (query : Dag) (induce : Bool)
    (addl : Option (List (String × TFType × Shape)))
    (ets : Option (List String)) (mask_keys : List String) (gm : MaskFn)
    (values : List α) : Dataset α :=
  { dag := query
    has_induce_func := induce
    additional_spec := match addl with | some s => s | none => []
    edge_types := match ets with | some e => e | none => query.edge_types
    rds_mask_keys := mask_keys
    get_mask := gm
    values := values }

/-- Keys of the additional-data spec, in declaration order (`self._additional_keys`). -/
def Dataset.additional_keys {α : Type} (ds : Dataset α) : List String :=
  ds.additional_spec.map (fun kv => kv.1)

/-- `Dataset._data_types_and_shapes`: masked feature (type, shape) pairs, then masked id
pairs, then masked sparse pairs.  The source keeps two parallel lists (types,
shapes) masked by the same masks; the embedding zips them into one list of pairs. -/
def data_types_and_shapes (gm : MaskFn) (node_decoder : Decoder)
    (is_edge : Bool) (is_sparse : Bool) : List (TFType × Shape) :=
  let m := gm node_decoder is_edge is_sparse
  maskFilter [(TFType.int64, ([none, some node_decoder.int_attr_num] : Shape)),
              (TFType.float32, ([none, some node_decoder.float_attr_num] : Shape)),
              (TFType.string, ([none, some node_decoder.string_attr_num] : Shape)),
              (TFType.int32, ([none] : Shape)),
              (TFType.float32, ([none] : Shape))] m.1
  ++ maskFilter [(TFType.int64, ([none] : Shape)),
                 (TFType.int64, ([none] : Shape))] m.2.1
  ++ maskFilter [(TFType.int64, ([none] : Shape)),
                 (TFType.int64, ([none, some 2] : Shape)),
                 (TFType.int64, ([none] : Shape))] m.2.2

/-- `Dataset._raw_flatten_types_and_shapes`: concatenate, over the raw dataset's mask
keys in order, each alias node's masked (type, shape) pairs. -/
def Dataset.raw_flatten_types_and_shapes {α : Type} (ds : Dataset α) :
    List (TFType × Shape) :=
  ds.rds_mask_keys.foldl (fun acc a =>
    let node := ds.dag.get_node a
    acc ++ data_types_and_shapes ds.get_mask node.decoder node.is_edge node.sparse) []

/-- `Dataset._batchgraph_types_and_shapes`: one edge-index pair per edge type, then per
node type its masked data pairs plus one graph-node-offsets pair, then one pair per
additional key. -/
def Dataset.batchgraph_types_and_shapes {α : Type} (ds : Dataset α) :
    List (TFType × Shape) :=
  let e := ds.edge_types.foldl
    (fun acc _ => acc ++ [(TFType.int32, ([some 2, none] : Shape))]) []
  let n := ds.dag.node_types.foldl (fun acc t =>
    acc ++ data_types_and_shapes ds.get_mask (ds.dag.get_node_decoder t) false false
        ++ [(TFType.int64, ([none] : Shape))]) e
  ds.additional_spec.foldl (fun acc kv => acc ++ [(kv.2.1, kv.2.2)]) n

/-- `self.pos_size`, recorded by `_batchgraph_flatten_types_and_shapes` as the length of
the single batch-mode block before any negative block is appended. -/
def Dataset.pos_size {α : Type} (ds : Dataset α) : Nat :=
  ds.batchgraph_types_and_shapes.length

/-- `Dataset._batchgraph_flatten_types_and_shapes`: the batch-mode block, declared twice
and concatenated when the negative-destination alias is present in the query. -/
def Dataset.batchgraph_flatten_types_and_shapes {α : Type} (ds : Dataset α) :
    List (TFType × Shape) :=
  let out := ds.batchgraph_types_and_shapes
  if SubKeys.NEG_DST ∈ ds.dag.list_alias then out ++ ds.batchgraph_types_and_shapes
  else out

/-- The declared types and shapes chosen by `_make_iterator`: raw mode when no induce
function was supplied, batch mode otherwise. -/
def Dataset.declared_types_and_shapes {α : Type} (ds : Dataset α) :
    List (TFType × Shape) :=
  if ds.has_induce_func then ds.batchgraph_flatten_types_and_shapes
  else ds.raw_flatten_types_and_shapes

/-- The ten raw per-alias field slots in declaration order: int attrs (0), float attrs
(1), string attrs (2), labels (3), weights (4), ids (5), dst ids (6), sparse offsets
(7), sparse indices (8), sparse dense-shape (9).  Selected-slot indices, in order. -/
def node_field_plan (gm : MaskFn) (node_decoder : Decoder)
    (is_edge : Bool) (is_sparse : Bool) : List Nat :=
  let m := gm node_decoder is_edge is_sparse
  maskFilter [0, 1, 2, 3, 4] m.1 ++ maskFilter [5, 6] m.2.1 ++ maskFilter [7, 8, 9] m.2.2

/-- The declared (type, shape) pair of field slot `i` for a node with decoder `d`
(the tables of `_data_types_and_shapes`). -/
def fieldPair (d : Decoder) : Nat → TFType × Shape
  | 0 => (TFType.int64, [none, some d.int_attr_num])
  | 1 => (TFType.float32, [none, some d.float_attr_num])
  | 2 => (TFType.string, [none, some d.string_attr_num])
  | 3 => (TFType.int32, [none])
  | 4 => (TFType.float32, [none])
  | 5 => (TFType.int64, [none])
  | 6 => (TFType.int64, [none])
  | 7 => (TFType.int64, [none])
  | 8 => (TFType.int64, [none, some 2])
  | _ => (TFType.int64, [none])

/-- The whole raw-mode field plan: for each alias in mask-key order, its selected
slots tagged with the alias. -/
def Dataset.raw_plan {α : Type} (ds : Dataset α) : List (String × Nat) :=
  ds.rds_mask_keys.flatMap (fun a =>
    let node := ds.dag.get_node a
    (node_field_plan ds.get_mask node.decoder node.is_edge node.sparse).map
      (fun i => (a, i)))

/-- Modelled from the spec: `RawDataset.get_flatten_values` (the raw-data-source
collaborator, outside this module) extracts, for each alias in mask-key order,
the values of exactly the mask-selected fields, in feature/id/sparse slot order;
`data a i` is the pulled tensor of alias `a` at field slot `i`. -/
def Dataset.get_flatten_values {α : Type} (ds : Dataset α)
    (data : String → Nat → α) : List α :=
  ds.rds_mask_keys.foldl (fun acc a =>
    let node := ds.dag.get_node a
    let m := ds.get_mask node.decoder node.is_edge node.sparse
    acc ++ maskFilter [data a 0, data a 1, data a 2, data a 3, data a 4] m.1
        ++ maskFilter [data a 5, data a 6] m.2.1
        ++ maskFilter [data a 7, data a 8, data a 9] m.2.2) []

/-- The common `while True: try: yield flatten(pull()) except OutOfRangeError: break`
loop of both generators, over a trace of pulls: each pull either supplies one unit
of data or raises the stream-exhaustion signal (the `Except.error` case), which
breaks the loop permanently; the remainder of the trace is never consumed. -/
def flattenLoop {α β : Type} (f : β → List α) :
    List (Except Unit β) → List (List α)
  | [] => []
  | Except.error _ :: _ => []
  | Except.ok d :: rest => f d :: flattenLoop f rest

/-- `Dataset._raw_flatten_generator`, as the loop over a trace of raw-source pulls. -/
def Dataset.raw_flatten_generator {α : Type} (ds : Dataset α)
    (trace : List (Except Unit (String → Nat → α))) : List (List α) :=
  flattenLoop ds.get_flatten_values trace

/-- Modelled from the spec: the flattened content of a homogeneous `BatchGraph` built
by `BatchGraph.from_graphs` from induced `SubGraph`s of node type `ntype` — one
edge-index tensor, the mask-selected node field tensors, one node-offsets tensor,
then one tensor per additional key. -/
structure HomoBatchData (α : Type) where
  ntype : String
  edge_index : α
  node_field : Nat → α
  node_offsets : α
  additional : String → α

/-- Modelled from the spec: `BatchGraph.flatten()` for the homogeneous variant. -/
def Dataset.homoBatchFlatten {α : Type} (ds : Dataset α) (g : HomoBatchData α) :
    List α :=
  [g.edge_index]
  ++ (node_field_plan ds.get_mask (ds.dag.get_node_decoder g.ntype) false false).map
      g.node_field
  ++ [g.node_offsets]
  ++ ds.additional_keys.map g.additional

/-- Modelled from the spec: the flattened content of a `HeteroBatchGraph` — per-type
edge-index tensors, per-type node field and offset tensors, additional tensors. -/
structure HeteroBatchData (α : Type) where
  edge_index : String → α
  node_field : String → Nat → α
  node_offsets : String → α
  additional : String → α

/-- Modelled from the spec: `HeteroBatchGraph.flatten(node_types, edge_types)` — one
edge-index tensor per edge type, then for each node type its mask-selected field
tensors followed by its offsets tensor, then one tensor per additional key. -/
def Dataset.heteroBatchFlatten {α : Type} (ds : Dataset α) (g : HeteroBatchData α) :
    List α :=
  ds.edge_types.map g.edge_index
  ++ ds.dag.node_types.flatMap (fun n =>
      (node_field_plan ds.get_mask (ds.dag.get_node_decoder n) false false).map
        (g.node_field n) ++ [g.node_offsets n])
  ++ ds.additional_keys.map g.additional

/-- One successful pull of `RawDataset.get_subgraphs`: either homogeneous `SubGraph`s
or `HeteroSubGraph`s (the branch taken on `isinstance(subgraphs[0], SubGraph)`),
with an optional parallel negative result. -/
inductive SubgraphsPull (α : Type)
  | homo (pos : HomoBatchData α) (neg : Option (HomoBatchData α))
  | hetero (pos : HeteroBatchData α) (neg : Option (HeteroBatchData α))

/-- The tuple flattened from one successful batch-mode pull: the positive batch
graph's flattening, extended with the negative one's when negative subgraphs
were returned. -/
def Dataset.batchFlattenOne {α : Type} (ds : Dataset α) : SubgraphsPull α → List α
  | SubgraphsPull.homo pos neg =>
      ds.homoBatchFlatten pos ++
        (match neg with | some n => ds.homoBatchFlatten n | none => [])
  | SubgraphsPull.hetero pos neg =>
      ds.heteroBatchFlatten pos ++
        (match neg with | some n => ds.heteroBatchFlatten n | none => [])

/-- `Dataset._batchgraph_flatten_generator`, as the loop over a trace of subgraph
pulls; the stream-exhaustion signal breaks the loop permanently. -/
def Dataset.batchgraph_flatten_generator {α : Type} (ds : Dataset α)
    (trace : List (Except Unit (SubgraphsPull α))) : List (List α) :=
  flattenLoop ds.batchFlattenOne trace

/-- The alignment contract of the external `get_subgraphs`/`from_graphs` collaborators
with the query: homogeneous pulls carry the query's single node type and the
resolved edge-type list has one entry; a negative result is returned exactly when
the query has a negative-destination alias. -/
def Dataset.pullAligned {α : Type} (ds : Dataset α) : SubgraphsPull α → Prop
  | SubgraphsPull.homo pos neg =>
      ds.dag.node_types = [pos.ntype] ∧ ds.edge_types.length = 1 ∧
        neg.isSome = decide (SubKeys.NEG_DST ∈ ds.dag.list_alias) ∧
        (match neg with
         | some n => ds.dag.node_types = [n.ntype]
         | none => True)
  | SubgraphsPull.hetero _ neg =>
      neg.isSome = decide (SubKeys.NEG_DST ∈ ds.dag.list_alias)

/-- The node schema handed to `from_tensors`: a single (type, decoder) pair for the
homogeneous `BatchGraph`, a per-type list for the `HeteroBatchGraph`. -/
inductive NodeSchema
  | homo (t : String) (d : Decoder)
  | hetero (l : List (String × Decoder))
  deriving DecidableEq

/-- Modelled from the spec: the batch object built by `from_tensors` — it records the
class chosen, the tensor slice, the node schema, the edge schema (edge types, each
paired with no decoder in the source) and the additional keys. -/
structure BuiltGraph (α : Type) where
  isHetero : Bool
  tensors : List α
  node_schema : NodeSchema
  edge_schema : Option (List String)
  additional_keys : List String
  deriving DecidableEq

/-- The heterogeneity test of `get_batchgraph` (line `if len(node_types) > 1 or
len(edge_types) > 1`). -/
def Dataset.isHeteroQuery {α : Type} (ds : Dataset α) : Bool :=
  ds.dag.node_types.length > 1 || ds.edge_types.length > 1

/-- The node schema `get_batchgraph` hands to `from_tensors`: the positive-source
node's (type, decoder) in the homogeneous case, the per-type list otherwise. -/
def Dataset.batchNodeSchema {α : Type} (ds : Dataset α) : NodeSchema :=
  if ds.isHeteroQuery then
    NodeSchema.hetero (ds.dag.node_types.map (fun x => (x, ds.dag.get_node_decoder x)))
  else
    NodeSchema.homo (ds.dag.get_node SubKeys.POS_SRC).ntype
      (ds.dag.get_node SubKeys.POS_SRC).decoder

/-- The edge schema `get_batchgraph` hands to `from_tensors` (present only in the
heterogeneous case; each type is paired with no decoder in the source). -/
def Dataset.batchEdgeSchema {α : Type} (ds : Dataset α) : Option (List String) :=
  if ds.isHeteroQuery then some ds.edge_types else none

/-- The positive batch graph of `get_batchgraph`: built from the first `pos_size`
elements of the flat value tuple. -/
def Dataset.posGraph {α : Type} (ds : Dataset α) : BuiltGraph α :=
  ⟨ds.isHeteroQuery, ds.values.take ds.pos_size, ds.batchNodeSchema,
   ds.batchEdgeSchema, ds.additional_keys⟩

/-- The negative batch graph of `get_batchgraph`: built from the remaining elements
when the negative-destination alias is in the query, absent otherwise. -/
def Dataset.negGraph {α : Type} (ds : Dataset α) : Option (BuiltGraph α) :=
  if SubKeys.NEG_DST ∈ ds.dag.list_alias then
    some ⟨ds.isHeteroQuery, ds.values.drop ds.pos_size, ds.batchNodeSchema,
      ds.batchEdgeSchema, ds.additional_keys⟩
  else none

/-- `Dataset.get_batchgraph`: chooses homogeneous vs heterogeneous by the number of
distinct node/edge types, builds the positive graph from the first `pos_size`
tensors and the negative graph (when the negative-destination alias is in the
query) from the rest, then dispatches on the requested alias. -/
def Dataset.get_batchgraph {α : Type} (ds : Dataset α) (a : String) :
    Except String (Option (BuiltGraph α)) :=
  if a = SubKeys.POS_SRC ∨ a = SubKeys.POS_DST then Except.ok (some ds.posGraph)
  else if a = SubKeys.NEG_DST then Except.ok ds.negGraph
  else Except.error
    "alias must be one of [SubKeys.POS_SRC, SubKeys.POS_DST, SubKeys.NEG_DST]"

/-- The `neighbors` argument of `get_egograph`, as the dynamically-typed Python value:
`None`, an actual list of aliases, or some other object carrying its truthiness. -/
inductive NeighborsArg
  | noneArg
  | listArg (l : List String)
  | otherArg (truthyBit : Bool)

/-- Python truthiness of the `neighbors` argument (`if neighbors:`). -/
def NeighborsArg.truthy : NeighborsArg → Bool
  | NeighborsArg.noneArg => false
  | NeighborsArg.listArg l => !l.isEmpty
  | NeighborsArg.otherArg b => b

/-- The part of the constructed `EgoGraph` the dag-walk determines: the centric alias,
the node-hop aliases, the edge-hop aliases and the per-node-hop neighbor counts
(`nbr_nodes`, `nbr_edges`, `nbr_nums` in the source). -/
structure EgoGraphRes where
  source : String
  nbr_nodes : List String
  nbr_edges : List String
  nbr_nums : List Nat
  deriving DecidableEq

/-- The explicit-mode loop of `get_egograph`: walk the given neighbor aliases,
checking each is a positive-or-negative downstream of its predecessor, and
classifying each hop by the predecessor's kind (dag identity is alias-keyed, so
node membership in the downstream lists is alias membership). -/
def egoExplicitLoop (dg : Dag) : DagNode → List String → List String → List String →
    List Nat → Except String (List String × List String × List Nat)
  | _, [], nodes, edges, nums => Except.ok (nodes, edges, nums)
  | pre, nbr :: rest, nodes, edges, nums =>
    let dag_node := dg.get_node nbr
    if nbr ∈ pre.pos_downstreams ++ pre.neg_downstreams then
      if pre.is_edge then
        egoExplicitLoop dg dag_node rest nodes (edges ++ [nbr]) nums
      else
        egoExplicitLoop dg dag_node rest (nodes ++ [nbr]) edges
          (nums ++ [dag_node.shape_last])
    else
      Except.error (nbr ++ " is not the downstream of " ++ pre.alias_name ++ ".")

/-- The automatic-mode loop of `get_egograph`: follow the positive-downstream chain,
failing when a node has several positive downstreams.  `fuel` bounds the number of
hops taken; `none` means the walk did not finish within the fuel (the Python loop
would still be running). -/
def egoAutoLoop (dg : Dag) (src : String) : Nat → DagNode → List String →
    List String → List String → List Nat →
    Option (Except String (List String × List String × List Nat))
  | fuel, pre, recepts, nodes, edges, nums =>
    match recepts with
    | [] => some (Except.ok (nodes, edges, nums))
    | r :: rs =>
      if rs.isEmpty then
        match fuel with
        | 0 => none
        | fuel' + 1 =>
          let cur := dg.get_node r
          if cur.is_edge then
            egoAutoLoop dg src fuel' cur cur.pos_downstreams nodes (edges ++ [r]) nums
          else
            egoAutoLoop dg src fuel' cur cur.pos_downstreams (nodes ++ [r]) edges
              (nums ++ [cur.shape_last])
      else
        some (Except.error ("Can not automatically find neighbors for "
          ++ pre.alias_name ++ ", which has multiple downstreams. You should assign"
          ++ " specific neighbors for " ++ src ++ "."))

/-- `Dataset.get_egograph`: explicit mode when `neighbors` is truthy (failing when it
is not a list), automatic mode otherwise.  `none` stands for a non-terminating
automatic walk (cyclic dag); `fuel` bounds its length. -/
def Dataset.get_egograph {α : Type} (ds : Dataset α) (fuel : Nat) (src : String)
    (neighbors : NeighborsArg) : Option (Except String EgoGraphRes) :=
  let source_node := ds.dag.get_node src
  if neighbors.truthy then
    match neighbors with
    | NeighborsArg.listArg l =>
      match egoExplicitLoop ds.dag source_node l [] [] [] with
      | Except.ok (n, e, m) => some (Except.ok ⟨src, n, e, m⟩)
      | Except.error msg => some (Except.error msg)
    | _ => some (Except.error "neighbors should be a list of alias")
  else
    match egoAutoLoop ds.dag src fuel source_node source_node.pos_downstreams
        [] [] [] with
    | some (Except.ok (n, e, m)) => some (Except.ok ⟨src, n, e, m⟩)
    | some (Except.error msg) => some (Except.error msg)
    | none => none

/-- Direct (accumulator-free) validity of an explicit neighbor chain: each successive
alias is a positive-or-negative downstream of its predecessor. -/
def chainValid (dg : Dag) : DagNode → List String → Bool
  | _, [] => true
  | pre, nbr :: rest =>
    decide (nbr ∈ pre.pos_downstreams ++ pre.neg_downstreams) &&
      chainValid dg (dg.get_node nbr) rest

/-- Direct classification of an explicit neighbor chain into node hops, edge hops and
per-node-hop neighbor counts, by the predecessor's kind. -/
def chainHops (dg : Dag) : DagNode → List String → List String × List String × List Nat
  | _, [] => ([], [], [])
  | pre, nbr :: rest =>
    let t := chainHops dg (dg.get_node nbr) rest
    if pre.is_edge then (t.1, nbr :: t.2.1, t.2.2)
    else (nbr :: t.1, t.2.1, (dg.get_node nbr).shape_last :: t.2.2)

/-- A maximal single-positive-downstream chain from alias `a`: each node on the way
has exactly one positive downstream (the next chain entry) and the last node has
none. -/
def posChain (dg : Dag) : String → List String → Bool
  | a, [] => (dg.get_node a).pos_downstreams.isEmpty
  | a, c :: rest => ((dg.get_node a).pos_downstreams == [c]) && posChain dg c rest

/-- A single-positive-downstream chain prefix from alias `a` (no condition on the
last node reached). -/
def posChainPrefix (dg : Dag) : String → List String → Bool
  | _, [] => true
  | a, c :: rest => ((dg.get_node a).pos_downstreams == [c]) && posChainPrefix dg c rest

/-- The alias reached after following a chain from `a` (the last chain entry, or `a`
itself for the empty chain). -/
def chainEnd (a : String) (chain : List String) : String :=
  chain.getLastD a

/-- The batch-mode declaration as the spec phrases it: one edge-index field per edge
type (int32, shape [2, unbound]), then for each node type its mask-selected fields
followed by one node-offset field (int64, shape [unbound]), then one field per
additional key with the caller-supplied type and shape. -/
def Dataset.batchDeclaredSpec {α : Type} (ds : Dataset α) : List (TFType × Shape) :=
  ds.edge_types.map (fun _ => (TFType.int32, ([some 2, none] : Shape)))
  ++ ds.dag.node_types.flatMap (fun n =>
      data_types_and_shapes ds.get_mask (ds.dag.get_node_decoder n) false false
        ++ [(TFType.int64, ([none] : Shape))])
  ++ ds.additional_spec.map (fun kv => (kv.2.1, kv.2.2))

/-- The raw-mode declaration as the spec phrases it: the concatenation, over aliases
in mask-key order, of that alias's mask-selected field slots mapped to their
declared (type, shape) pairs. -/
def Dataset.rawDeclaredSpec {α : Type} (ds : Dataset α) : List (TFType × Shape) :=
  ds.rds_mask_keys.flatMap (fun a =>
    let node := ds.dag.get_node a
    (node_field_plan ds.get_mask node.decoder node.is_edge node.sparse).map
      (fieldPair node.decoder))

/-- A concrete decoder for the example fixtures: two int attributes, one float
attribute, no string attributes. -/
def exDecoder : Decoder := ⟨2, 1, 0⟩

/-- A concrete mask resolver for the fixtures: attribute slots are selected when their
count is positive, weights always, labels never; ids always, dst ids on edges;
sparse slots when sparse. -/
def exMask : MaskFn := fun d ie sp =>
  ([decide (0 < d.int_attr_num), decide (0 < d.float_attr_num),
    decide (0 < d.string_attr_num), false, true],
   [true, ie],
   [sp, sp, sp])

/-- Build one fixture dag node. -/
def mkNode (a t : String) (d : Decoder) (ie sp : Bool) (sl : Nat)
    (pd nd : List String) : DagNode :=
  ⟨a, t, d, ie, sp, sl, pd, nd⟩

/-- Alias resolution of the main fixture dag: `src` (a node) has the positive
downstream edge `e1` and the negative downstream `nneg`; the edge `e1` leads to the
node `n1`; `n1` leads to the node `n2`; `n2` is terminal. -/
def exGetNode : String → DagNode := fun a =>
  if a = "src" then mkNode "src" "user" exDecoder false false 0 ["e1"] ["nneg"]
  else if a = "e1" then mkNode "e1" "u-i" exDecoder true false 10 ["n1"] []
  else if a = "n1" then mkNode "n1" "item" exDecoder false false 5 ["n2"] []
  else if a = "n2" then mkNode "n2" "item" exDecoder false false 3 [] []
  else if a = "nneg" then mkNode "nneg" "item" exDecoder false false 4 [] []
  else mkNode a "item" exDecoder false false 0 [] []

/-- The main fixture dag. -/
def exDag : Dag :=
  ⟨exGetNode, ["user", "item"], ["u-i"], fun _ => exDecoder,
   ["pos_src", "pos_dst", "src", "e1", "n1", "n2"]⟩

/-- A fixture dag whose `src` has two positive downstreams (ambiguous for the
automatic egograph walk). -/
def exDagBranch : Dag :=
  ⟨fun a =>
    if a = "src" then mkNode "src" "user" exDecoder false false 0 ["n1", "n2"] []
    else exGetNode a,
   ["user", "item"], ["u-i"], fun _ => exDecoder, ["pos_src", "pos_dst", "src"]⟩

/-- A raw-mode fixture dataset over natural-number tensors. -/
def exDsRaw : Dataset Nat :=
  ⟨exDag, false, [], exDag.edge_types, ["src", "e1", "n1"], exMask, []⟩

/-- A fixture dataset on the branching dag (raw mode, used for egograph claims). -/
def exDsBranch : Dataset Nat :=
  ⟨exDagBranch, false, [], ["u-i"], ["src"], exMask, []⟩

/-- A single-node-type, single-edge-type dag without a negative-destination alias. -/
def exDagHomo : Dag :=
  ⟨exGetNode, ["user"], ["u-i"], fun _ => exDecoder, ["pos_src", "pos_dst"]⟩

/-- The same dag with the negative-destination alias present. -/
def exDagHomoNeg : Dag :=
  ⟨exGetNode, ["user"], ["u-i"], fun _ => exDecoder, ["pos_src", "pos_dst", "neg_dst"]⟩

/-- A batch-mode fixture dataset (homogeneous, no negative block), with one
additional key and a concrete flat value tuple. -/
def exDsBatch : Dataset Nat :=
  ⟨exDagHomo, true, [("extra", TFType.float32, [none])], exDagHomo.edge_types,
   [], exMask, [0, 1, 2, 3, 4, 5, 6, 7, 8, 9, 10, 11]⟩

/-- A batch-mode fixture dataset with the negative-destination alias present. -/
def exDsBatchNeg : Dataset Nat :=
  ⟨exDagHomoNeg, true, [("extra", TFType.float32, [none])], exDagHomoNeg.edge_types,
   [], exMask, [0, 1, 2, 3, 4, 5, 6, 7, 8, 9, 10, 11]⟩

/-- A concrete homogeneous batch pull for the generator fixtures. -/
def exHomoPull : HomoBatchData Nat :=
  ⟨"user", 100, fun i => 200 + i, 300, fun _ => 400⟩

/-- A concrete per-field raw pull for the generator fixtures. -/
def exRawData : String → Nat → Nat := fun _ i => 500 + i

theorem maskFilter_map {α β : Type _} (f : α → β) :
    ∀ (xs : List α) (m : List Bool),
      maskFilter (xs.map f) m = (maskFilter xs m).map f := by
  intro xs
  induction xs with
  | nil => intro m; cases m <;> rfl
  | cons x xs ih =>
    intro m
    cases m with
    | nil => rfl
    | cons b bs => cases b <;> simp [maskFilter, ih]

theorem maskFilter_length_eq {α β : Type _} :
    ∀ (xs : List α) (ys : List β) (m : List Bool), xs.length = ys.length →
      (maskFilter xs m).length = (maskFilter ys m).length := by
  intro xs
  induction xs with
  | nil =>
    intro ys m h
    cases ys with
    | nil => rfl
    | cons y ys => simp at h
  | cons x xs ih =>
    intro ys m h
    cases ys with
    | nil => simp at h
    | cons y ys =>
      cases m with
      | nil => rfl
      | cons b bs =>
        simp only [List.length_cons, Nat.succ.injEq] at h
        cases b <;> simp [maskFilter, ih ys bs h]

theorem foldl_append_eq_flatMap {β γ : Type _} (g : β → List γ) :
    ∀ (l : List β) (init : List γ),
      List.foldl (fun acc x => acc ++ g x) init l = init ++ l.flatMap g := by
  intro l
  induction l with
  | nil => intro init; simp
  | cons x xs ih =>
    intro init
    simp only [List.foldl_cons, List.flatMap_cons, ih, List.append_assoc]

theorem foldl_append2_eq_flatMap {β γ : Type _} (g1 g2 : β → List γ) :
    ∀ (l : List β) (init : List γ),
      List.foldl (fun acc x => acc ++ g1 x ++ g2 x) init l
        = init ++ l.flatMap (fun x => g1 x ++ g2 x) := by
  intro l
  induction l with
  | nil => intro init; simp
  | cons x xs ih =>
    intro init
    rw [List.foldl_cons, ih, List.flatMap_cons]
    simp [List.append_assoc]

theorem foldl_append3_eq_flatMap {β γ : Type _} (g1 g2 g3 : β → List γ) :
    ∀ (l : List β) (init : List γ),
      List.foldl (fun acc x => acc ++ g1 x ++ g2 x ++ g3 x) init l
        = init ++ l.flatMap (fun x => g1 x ++ g2 x ++ g3 x) := by
  intro l
  induction l with
  | nil => intro init; simp
  | cons x xs ih =>
    intro init
    rw [List.foldl_cons, ih, List.flatMap_cons]
    simp [List.append_assoc]

theorem data_types_and_shapes_eq_plan (gm : MaskFn) (d : Decoder) (ie isp : Bool) :
    data_types_and_shapes gm d ie isp =
      (node_field_plan gm d ie isp).map (fieldPair d) := by
  simp only [data_types_and_shapes, node_field_plan, List.map_append,
    ← maskFilter_map]
  rfl

theorem flatMap_singleton_map {β γ : Type _} (f : β → γ) :
    ∀ l : List β, (l.flatMap (fun x => [f x])) = l.map f := by
  intro l
  induction l with
  | nil => rfl
  | cons x xs ih => simp [List.flatMap_cons, ih]

theorem raw_declared_eq_spec {α : Type} (ds : Dataset α) :
    ds.raw_flatten_types_and_shapes = ds.rawDeclaredSpec := by
  simp only [Dataset.raw_flatten_types_and_shapes, Dataset.rawDeclaredSpec]
  rw [foldl_append_eq_flatMap]
  simp only [List.nil_append]
  exact List.flatMap_congr (fun a _ => data_types_and_shapes_eq_plan ..)

theorem raw_declared_eq_plan {α : Type} (ds : Dataset α) :
    ds.raw_flatten_types_and_shapes =
      ds.raw_plan.map (fun p => fieldPair (ds.dag.get_node p.1).decoder p.2) := by
  rw [raw_declared_eq_spec]
  simp only [Dataset.rawDeclaredSpec, Dataset.raw_plan, List.map_flatMap]
  exact List.flatMap_congr (fun a _ => by simp [List.map_map, Function.comp])

theorem get_flatten_values_eq_plan {α : Type} (ds : Dataset α)
    (d : String → Nat → α) :
    ds.get_flatten_values d = ds.raw_plan.map (fun p => d p.1 p.2) := by
  simp only [Dataset.get_flatten_values, Dataset.raw_plan, List.map_flatMap]
  rw [foldl_append3_eq_flatMap]
  simp only [List.nil_append]
  refine List.flatMap_congr (fun a _ => ?_)
  have h5 : [d a 0, d a 1, d a 2, d a 3, d a 4] = [0, 1, 2, 3, 4].map (d a) := rfl
  have h2 : [d a 5, d a 6] = [5, 6].map (d a) := rfl
  have h3 : [d a 7, d a 8, d a 9] = [7, 8, 9].map (d a) := rfl
  rw [h5, h2, h3, maskFilter_map, maskFilter_map, maskFilter_map]
  simp only [node_field_plan, List.map_map, List.map_append]
  rfl

theorem batch_declared_eq_spec {α : Type} (ds : Dataset α) :
    ds.batchgraph_types_and_shapes = ds.batchDeclaredSpec := by
  simp only [Dataset.batchgraph_types_and_shapes, Dataset.batchDeclaredSpec]
  rw [foldl_append_eq_flatMap, foldl_append2_eq_flatMap, foldl_append_eq_flatMap]
  rw [flatMap_singleton_map, flatMap_singleton_map]
  simp [List.append_assoc]

theorem heteroFlatten_length {α : Type} (ds : Dataset α) (g : HeteroBatchData α) :
    (ds.heteroBatchFlatten g).length = ds.pos_size := by
  simp only [Dataset.heteroBatchFlatten, Dataset.pos_size, batch_declared_eq_spec,
    Dataset.batchDeclaredSpec, List.length_append, List.length_flatMap,
    List.length_map, Dataset.additional_keys]
  congr 2
  refine congrArg List.sum (List.map_congr_left (fun n _ => ?_))
  simp [Function.comp, data_types_and_shapes_eq_plan]

theorem homoFlatten_length {α : Type} (ds : Dataset α) (g : HomoBatchData α)
    (hn : ds.dag.node_types = [g.ntype]) (he : ds.edge_types.length = 1) :
    (ds.homoBatchFlatten g).length = ds.pos_size := by
  simp only [Dataset.homoBatchFlatten, Dataset.pos_size, batch_declared_eq_spec,
    Dataset.batchDeclaredSpec, List.length_append, List.length_map,
    List.length_flatMap, Dataset.additional_keys, hn, he]
  simp [Function.comp, data_types_and_shapes_eq_plan]
  omega

theorem flattenLoop_mem {α β : Type} (f : β → List α) :
    ∀ (trace : List (Except Unit β)) (out : List α), out ∈ flattenLoop f trace →
      ∃ d, Except.ok d ∈ trace ∧ out = f d := by
  intro trace
  induction trace with
  | nil => intro out h; simp [flattenLoop] at h
  | cons x rest ih =>
    intro out h
    cases x with
    | error e => simp [flattenLoop] at h
    | ok d =>
      simp only [flattenLoop, List.mem_cons] at h
      cases h with
      | inl h => exact ⟨d, List.mem_cons_self .., h⟩
      | inr h =>
        obtain ⟨d', hd', ho⟩ := ih out h
        exact ⟨d', List.mem_cons_of_mem _ hd', ho⟩

theorem flattenLoop_break {α β : Type} (f : β → List α) (e : Unit)
    (post : List (Except Unit β)) :
    ∀ pre : List (Except Unit β), (∀ x ∈ pre, ∃ v, x = Except.ok v) →
      flattenLoop f (pre ++ Except.error e :: post) = flattenLoop f pre ∧
        (flattenLoop f pre).length = pre.length := by
  intro pre
  induction pre with
  | nil => intro _; exact ⟨rfl, rfl⟩
  | cons x xs ih =>
    intro h
    obtain ⟨v, hv⟩ := h x (List.mem_cons_self ..)
    subst hv
    have := ih (fun y hy => h y (List.mem_cons_of_mem _ hy))
    simp only [List.cons_append, flattenLoop, List.length_cons, List.append_eq]
    exact ⟨by rw [this.1], by rw [this.2]⟩

theorem egoExplicitLoop_ok (dg : Dag) :
    ∀ (l : List String) (pre : DagNode) (nodes edges : List String) (nums : List Nat),
      chainValid dg pre l = true →
      egoExplicitLoop dg pre l nodes edges nums =
        Except.ok (nodes ++ (chainHops dg pre l).1,
          edges ++ (chainHops dg pre l).2.1, nums ++ (chainHops dg pre l).2.2) := by
  intro l
  induction l with
  | nil => intro pre nodes edges nums _; simp [egoExplicitLoop, chainHops]
  | cons nbr rest ih =>
    intro pre nodes edges nums h
    simp only [chainValid, Bool.and_eq_true, decide_eq_true_eq] at h
    obtain ⟨hmem, hrest⟩ := h
    simp only [egoExplicitLoop, chainHops, if_pos hmem]
    cases he : pre.is_edge with
    | true => simp [he, ih _ _ _ _ hrest, List.append_assoc]
    | false => simp [he, ih _ _ _ _ hrest, List.append_assoc]

theorem egoExplicitLoop_err (dg : Dag) :
    ∀ (l : List String) (pre : DagNode) (nodes edges : List String) (nums : List Nat),
      chainValid dg pre l = false →
      ∃ msg, egoExplicitLoop dg pre l nodes edges nums = Except.error msg := by
  intro l
  induction l with
  | nil => intro pre nodes edges nums h; simp [chainValid] at h
  | cons nbr rest ih =>
    intro pre nodes edges nums h
    simp only [chainValid, Bool.and_eq_false_iff, decide_eq_false_iff_not] at h
    by_cases hmem : nbr ∈ pre.pos_downstreams ++ pre.neg_downstreams
    · have hrest : chainValid dg (dg.get_node nbr) rest = false := by
        cases h with
        | inl h => exact absurd hmem h
        | inr h => exact h
      simp only [egoExplicitLoop, if_pos hmem]
      cases he : pre.is_edge with
      | true => simpa [he] using ih _ _ _ _ hrest
      | false => simpa [he] using ih _ _ _ _ hrest
    · exact ⟨nbr ++ " is not the downstream of " ++ pre.alias_name ++ ".",
        by simp only [egoExplicitLoop, if_neg hmem]⟩

theorem egoAutoLoop_ok (dg : Dag) (src : String) :
    ∀ (chain : List String) (fuel : Nat) (a : String) (nodes edges : List String)
      (nums : List Nat),
      posChain dg a chain = true → chain.length ≤ fuel →
      ∃ r, egoAutoLoop dg src fuel (dg.get_node a)
          (dg.get_node a).pos_downstreams nodes edges nums = some (Except.ok r) ∧
        r.1.length + r.2.1.length = nodes.length + edges.length + chain.length := by
  intro chain
  induction chain with
  | nil =>
    intro fuel a nodes edges nums h _
    simp only [posChain, List.isEmpty_iff] at h
    rw [h]
    exact ⟨(nodes, edges, nums), by simp [egoAutoLoop]⟩
  | cons c rest ih =>
    intro fuel a nodes edges nums h hf
    simp only [posChain, Bool.and_eq_true, beq_iff_eq] at h
    obtain ⟨hpd, hrest⟩ := h
    rw [hpd]
    cases fuel with
    | zero => simp at hf
    | succ f =>
      have hf' : rest.length ≤ f := by simpa using hf
      simp only [egoAutoLoop, List.isEmpty_nil, if_pos rfl]
      cases he : (dg.get_node c).is_edge with
      | true =>
        obtain ⟨r, hr, hl⟩ := ih f c nodes (edges ++ [c]) nums hrest hf'
        refine ⟨r, by simpa [he] using hr, ?_⟩
        simp at hl ⊢
        omega
      | false =>
        obtain ⟨r, hr, hl⟩ :=
          ih f c (nodes ++ [c]) edges (nums ++ [(dg.get_node c).shape_last]) hrest hf'
        refine ⟨r, by simpa [he] using hr, ?_⟩
        simp at hl ⊢
        omega

theorem egoAutoLoop_err (dg : Dag) (src : String) :
    ∀ (chain : List String) (fuel : Nat) (a : String) (nodes edges : List String)
      (nums : List Nat),
      posChainPrefix dg a chain = true →
      2 ≤ (dg.get_node (chainEnd a chain)).pos_downstreams.length →
      chain.length ≤ fuel →
      ∃ msg, egoAutoLoop dg src fuel (dg.get_node a)
          (dg.get_node a).pos_downstreams nodes edges nums =
        some (Except.error msg) := by
  intro chain
  induction chain with
  | nil =>
    intro fuel a nodes edges nums _ h2 _
    simp only [chainEnd, List.getLastD_nil] at h2
    cases hpd : (dg.get_node a).pos_downstreams with
    | nil => rw [hpd] at h2; simp at h2
    | cons r rs =>
      cases rs with
      | nil => rw [hpd] at h2; simp at h2
      | cons r2 rs' =>
        exact ⟨"Can not automatically find neighbors for "
          ++ (dg.get_node a).alias_name
          ++ ", which has multiple downstreams. You should assign"
          ++ " specific neighbors for " ++ src ++ ".",
          by rw [egoAutoLoop.eq_def]; simp⟩
  | cons c rest ih =>
    intro fuel a nodes edges nums h h2 hf
    simp only [posChainPrefix, Bool.and_eq_true, beq_iff_eq] at h
    obtain ⟨hpd, hrest⟩ := h
    have h2' : 2 ≤ (dg.get_node (chainEnd c rest)).pos_downstreams.length := by
      simp only [chainEnd, List.getLastD_cons] at h2
      exact h2
    rw [hpd]
    cases fuel with
    | zero => simp at hf
    | succ f =>
      have hf' : rest.length ≤ f := by simpa using hf
      simp only [egoAutoLoop, List.isEmpty_nil, if_pos rfl]
      cases he : (dg.get_node c).is_edge with
      | true =>
        obtain ⟨msg, hr⟩ := ih f c nodes (edges ++ [c]) nums hrest h2' hf'
        exact ⟨msg, by simpa [he] using hr⟩
      | false =>
        obtain ⟨msg, hr⟩ :=
          ih f c (nodes ++ [c]) edges (nums ++ [(dg.get_node c).shape_last]) hrest h2' hf'
        exact ⟨msg, by simpa [he] using hr⟩

theorem batchgraph_flatten_len {α : Type} (ds : Dataset α) :
    ds.batchgraph_flatten_types_and_shapes.length =
      if SubKeys.NEG_DST ∈ ds.dag.list_alias then ds.pos_size + ds.pos_size
      else ds.pos_size := by
  simp only [Dataset.batchgraph_flatten_types_and_shapes, Dataset.pos_size]
  split <;> simp

theorem batchFlattenOne_length {α : Type} (ds : Dataset α) (sg : SubgraphsPull α)
    (h : ds.pullAligned sg) :
    (ds.batchFlattenOne sg).length =
      ds.batchgraph_flatten_types_and_shapes.length := by
  rw [batchgraph_flatten_len]
  cases sg with
  | homo pos neg =>
    obtain ⟨hn, he, hneg, hnegty⟩ := h
    cases neg with
    | none =>
      have : ¬ SubKeys.NEG_DST ∈ ds.dag.list_alias := by
        simpa using hneg.symm
      simp [Dataset.batchFlattenOne, this, homoFlatten_length ds pos hn he]
    | some n =>
      have : SubKeys.NEG_DST ∈ ds.dag.list_alias := by
        simpa using hneg.symm
      simp [Dataset.batchFlattenOne, this, homoFlatten_length ds pos hn he,
        homoFlatten_length ds n hnegty he]
  | hetero pos neg =>
    have hneg := h
    cases neg with
    | none =>
      have : ¬ SubKeys.NEG_DST ∈ ds.dag.list_alias := by
        simpa using hneg.symm
      simp [Dataset.batchFlattenOne, this, heteroFlatten_length]
    | some n =>
      have : SubKeys.NEG_DST ∈ ds.dag.list_alias := by
        simpa using hneg.symm
      simp [Dataset.batchFlattenOne, this, heteroFlatten_length]

theorem fieldPair_shape_head (d : Decoder) :
    ∀ i : Nat, (fieldPair d i).2.head? = some none := by
  intro i
  match i with
  | 0 => rfl
  | 1 => rfl
  | 2 => rfl
  | 3 => rfl
  | 4 => rfl
  | 5 => rfl
  | 6 => rfl
  | 7 => rfl
  | 8 => rfl
  | n + 9 => rfl

/-- C3: in batch mode, the declared (type, shape) sequence is ordered as one
edge-index field per edge type (int32, fixed shape [2, unbound]); then, for each
node type, its mask-selected attribute fields followed by one node-offset field
(int64, shape [unbound]); then one field per user-declared additional key carrying
the caller-supplied type and shape. -/
theorem batch_declared_order {α : Type} (ds : Dataset α) :
    ds.batchgraph_types_and_shapes =
      ds.edge_types.map (fun _ => (TFType.int32, ([some 2, none] : Shape)))
      ++ ds.dag.node_types.flatMap (fun n =>
          data_types_and_shapes ds.get_mask (ds.dag.get_node_decoder n) false false
            ++ [(TFType.int64, ([none] : Shape))])
      ++ ds.additional_spec.map (fun kv => (kv.2.1, kv.2.2)) :=
  batch_declared_eq_spec ds

/-- C4: in raw mode, the declared sequence is the concatenation, over aliases in the
order the raw-value source enumerates its masks, of that alias's mask-selected
(type, shape) pairs, each alias's pairs ordered as feature fields (slots 0-4: int
attrs, float attrs, string attrs, labels, weights), then id fields (slots 5-6),
then sparse fields (slots 7-9), with the slot tables of `fieldPair` binding the
attribute-count dimensions to the decoder's counts; and every declared shape
carries a leading unbound dimension. -/
theorem raw_declared_order {α : Type} (ds : Dataset α) :
    ds.raw_flatten_types_and_shapes = ds.rawDeclaredSpec ∧
    ds.raw_flatten_types_and_shapes =
      ds.raw_plan.map (fun p => fieldPair (ds.dag.get_node p.1).decoder p.2) ∧
    ∀ p ∈ ds.raw_flatten_types_and_shapes, p.2.head? = some none := by
  refine ⟨raw_declared_eq_spec ds, raw_declared_eq_plan ds, ?_⟩
  intro p hp
  rw [raw_declared_eq_plan ds] at hp
  obtain ⟨q, _, rfl⟩ := List.mem_map.mp hp
  exact fieldPair_shape_head _ _

theorem raw_declared_order_witness :
    ((TFType.int64, ([none, some 2] : Shape)) ∈ exDsRaw.raw_flatten_types_and_shapes)
      ∧ ([(none : Option Nat), some 2].head? = some none) :=
  ⟨by decide, (raw_declared_order exDsRaw).2.2 (TFType.int64, [none, some 2])
    (by decide)⟩

/-- C2: the declarer records `pos_size` as the length of the single batch-mode block
before any negative block is appended (the block is declared twice and concatenated
when the negative-destination alias is present), and `get_batchgraph` builds the
positive graph from exactly the first `pos_size` elements of the flat tensor tuple
and the negative graph from the remaining elements. -/
theorem pos_size_and_slicing {α : Type} (ds : Dataset α) :
    ds.pos_size = ds.batchgraph_types_and_shapes.length ∧
    (SubKeys.NEG_DST ∈ ds.dag.list_alias →
      ds.batchgraph_flatten_types_and_shapes
        = ds.batchgraph_types_and_shapes ++ ds.batchgraph_types_and_shapes) ∧
    (SubKeys.NEG_DST ∉ ds.dag.list_alias →
      ds.batchgraph_flatten_types_and_shapes = ds.batchgraph_types_and_shapes) ∧
    (∃ g, ds.get_batchgraph SubKeys.POS_SRC = Except.ok (some g) ∧
      g.tensors = ds.values.take ds.pos_size) ∧
    (SubKeys.NEG_DST ∈ ds.dag.list_alias →
      ∃ g, ds.get_batchgraph SubKeys.NEG_DST = Except.ok (some g) ∧
        g.tensors = ds.values.drop ds.pos_size) := by
  refine ⟨rfl, ?_, ?_, ?_, ?_⟩
  · intro h
    simp [Dataset.batchgraph_flatten_types_and_shapes, h]
  · intro h
    simp [Dataset.batchgraph_flatten_types_and_shapes, h]
  · exact ⟨ds.posGraph, by simp [Dataset.get_batchgraph], rfl⟩
  · intro h
    refine ⟨⟨ds.isHeteroQuery, ds.values.drop ds.pos_size, ds.batchNodeSchema,
      ds.batchEdgeSchema, ds.additional_keys⟩, ?_, rfl⟩
    simp only [Dataset.get_batchgraph, Dataset.negGraph, SubKeys.POS_SRC,
      SubKeys.POS_DST, SubKeys.NEG_DST]
    simp
    exact h

theorem pos_size_and_slicing_witness :
    (SubKeys.NEG_DST ∈ exDsBatchNeg.dag.list_alias) ∧
    (exDsBatchNeg.batchgraph_flatten_types_and_shapes
      = exDsBatchNeg.batchgraph_types_and_shapes
        ++ exDsBatchNeg.batchgraph_types_and_shapes) ∧
    (SubKeys.NEG_DST ∉ exDsBatch.dag.list_alias) ∧
    (exDsBatch.batchgraph_flatten_types_and_shapes
      = exDsBatch.batchgraph_types_and_shapes) ∧
    (∃ g, exDsBatchNeg.get_batchgraph SubKeys.NEG_DST = Except.ok (some g) ∧
      g.tensors = exDsBatchNeg.values.drop exDsBatchNeg.pos_size) :=
  ⟨by decide, (pos_size_and_slicing exDsBatchNeg).2.1 (by decide), by decide,
   (pos_size_and_slicing exDsBatch).2.2.1 (by decide),
   (pos_size_and_slicing exDsBatchNeg).2.2.2.2 (by decide)⟩

/-- C6: `get_batchgraph` returns the same positive batch object for the
positive-source and positive-destination aliases; for the negative-destination
alias it returns the negative batch object when that alias is in the query and an
absent result (`None`) when it is not; any other alias fails with an
invalid-argument condition. -/
theorem get_batchgraph_alias_dispatch {α : Type} (ds : Dataset α) :
    ds.get_batchgraph SubKeys.POS_SRC = ds.get_batchgraph SubKeys.POS_DST ∧
    (∃ g, ds.get_batchgraph SubKeys.POS_SRC = Except.ok (some g)) ∧
    (SubKeys.NEG_DST ∈ ds.dag.list_alias →
      ∃ g, ds.get_batchgraph SubKeys.NEG_DST = Except.ok (some g)) ∧
    (SubKeys.NEG_DST ∉ ds.dag.list_alias →
      ds.get_batchgraph SubKeys.NEG_DST = Except.ok none) ∧
    (∀ a, a ≠ SubKeys.POS_SRC → a ≠ SubKeys.POS_DST → a ≠ SubKeys.NEG_DST →
      ∃ msg, ds.get_batchgraph a = Except.error msg) := by
  refine ⟨?_, ?_, ?_, ?_, ?_⟩
  · simp [Dataset.get_batchgraph, SubKeys.POS_SRC, SubKeys.POS_DST, SubKeys.NEG_DST]
  · exact ⟨ds.posGraph, by simp [Dataset.get_batchgraph]⟩
  · intro h
    refine ⟨⟨ds.isHeteroQuery, ds.values.drop ds.pos_size, ds.batchNodeSchema,
      ds.batchEdgeSchema, ds.additional_keys⟩, ?_⟩
    simp only [Dataset.get_batchgraph, Dataset.negGraph, SubKeys.POS_SRC,
      SubKeys.POS_DST, SubKeys.NEG_DST]
    simp
    exact h
  · intro h
    simp only [Dataset.get_batchgraph, Dataset.negGraph, SubKeys.POS_SRC,
      SubKeys.POS_DST, SubKeys.NEG_DST]
    simp
    exact h
  · intro a h1 h2 h3
    exact ⟨"alias must be one of [SubKeys.POS_SRC, SubKeys.POS_DST, SubKeys.NEG_DST]",
      by simp [Dataset.get_batchgraph, h1, h2, h3]⟩

theorem get_batchgraph_alias_dispatch_witness :
    (SubKeys.NEG_DST ∈ exDsBatchNeg.dag.list_alias) ∧
    (∃ g, exDsBatchNeg.get_batchgraph SubKeys.NEG_DST = Except.ok (some g)) ∧
    (SubKeys.NEG_DST ∉ exDsBatch.dag.list_alias) ∧
    (exDsBatch.get_batchgraph SubKeys.NEG_DST = Except.ok none) ∧
    (∃ msg, exDsBatch.get_batchgraph "zzz" = Except.error msg) :=
  ⟨by decide, (get_batchgraph_alias_dispatch exDsBatchNeg).2.2.1 (by decide),
   by decide, (get_batchgraph_alias_dispatch exDsBatch).2.2.2.1 (by decide),
   (get_batchgraph_alias_dispatch exDsBatch).2.2.2.2 "zzz" (by decide) (by decide)
     (by decide)⟩

/-- C7: `get_batchgraph` builds a heterogeneous batch (per-type node schemas from the
query's node types, per-type edge schemas from the configured edge types) exactly
when the query involves more than one distinct node type or more than one distinct
edge type; otherwise it builds a homogeneous batch whose single node schema is the
positive-source node's type and decoder. -/
theorem batchgraph_hetero_rule {α : Type} (ds : Dataset α) (g : BuiltGraph α)
    (h : ds.get_batchgraph SubKeys.POS_SRC = Except.ok (some g)) :
    g.isHetero = (ds.dag.node_types.length > 1 || ds.edge_types.length > 1) ∧
    (g.isHetero = false →
      g.node_schema = NodeSchema.homo (ds.dag.get_node SubKeys.POS_SRC).ntype
          (ds.dag.get_node SubKeys.POS_SRC).decoder ∧
        g.edge_schema = none) ∧
    (g.isHetero = true →
      g.node_schema = NodeSchema.hetero
          (ds.dag.node_types.map (fun x => (x, ds.dag.get_node_decoder x))) ∧
        g.edge_schema = some ds.edge_types) := by
  simp only [Dataset.get_batchgraph, SubKeys.POS_SRC, SubKeys.POS_DST,
    SubKeys.NEG_DST] at h
  simp at h
  subst h
  cases hH : (ds.dag.node_types.length > 1 || ds.edge_types.length > 1) with
  | true =>
    simp [Dataset.posGraph, Dataset.batchNodeSchema, Dataset.batchEdgeSchema,
      Dataset.isHeteroQuery, hH]
  | false =>
    simp [Dataset.posGraph, Dataset.batchNodeSchema, Dataset.batchEdgeSchema,
      Dataset.isHeteroQuery, hH]

/-- C1: for every tuple yielded by the dataset's generator (raw mode or batch mode,
with or without a negative block), the tuple's length and element order equal the
length and order of the (type, shape) sequence computed by the schema declarer at
construction time, on every pull: raw values and raw declaration are both images
of the same field plan (same alias order, same slot order), and every yielded
tuple's length equals the declared length (batch mode under the external
collaborators' alignment contract `pullAligned`). -/
theorem generator_matches_declared {α : Type} (ds : Dataset α) :
    (∀ d : String → Nat → α,
      ds.get_flatten_values d = ds.raw_plan.map (fun p => d p.1 p.2)) ∧
    (ds.has_induce_func = false →
      ds.declared_types_and_shapes
        = ds.raw_plan.map (fun p => fieldPair (ds.dag.get_node p.1).decoder p.2)) ∧
    (ds.has_induce_func = false →
      ∀ (trace : List (Except Unit (String → Nat → α))),
        ∀ out ∈ ds.raw_flatten_generator trace,
          out.length = ds.declared_types_and_shapes.length) ∧
    (ds.has_induce_func = true →
      ∀ (trace : List (Except Unit (SubgraphsPull α))),
        (∀ sg, Except.ok sg ∈ trace → ds.pullAligned sg) →
        ∀ out ∈ ds.batchgraph_flatten_generator trace,
          out.length = ds.declared_types_and_shapes.length) := by
  have hdecl : ds.has_induce_func = false →
      ds.declared_types_and_shapes = ds.raw_flatten_types_and_shapes := by
    intro hf; simp [Dataset.declared_types_and_shapes, hf]
  refine ⟨get_flatten_values_eq_plan ds, ?_, ?_, ?_⟩
  · intro hf; rw [hdecl hf]; exact raw_declared_eq_plan ds
  · intro hf trace out hout
    obtain ⟨d, _, rfl⟩ := flattenLoop_mem _ trace out hout
    rw [hdecl hf, get_flatten_values_eq_plan ds d, raw_declared_eq_plan ds]
    simp
  · intro hf trace haligned out hout
    obtain ⟨sg, hsg, rfl⟩ := flattenLoop_mem _ trace out hout
    have hd : ds.declared_types_and_shapes
        = ds.batchgraph_flatten_types_and_shapes := by
      simp [Dataset.declared_types_and_shapes, hf]
    rw [hd]
    exact batchFlattenOne_length ds sg (haligned sg hsg)

theorem generator_matches_declared_witness :
    (exDsRaw.get_flatten_values exRawData).length
        = exDsRaw.declared_types_and_shapes.length ∧
    (exDsBatch.batchFlattenOne (SubgraphsPull.homo exHomoPull none)).length
        = exDsBatch.declared_types_and_shapes.length :=
  ⟨(generator_matches_declared exDsRaw).2.2.1 rfl [Except.ok exRawData] _
      (by simp [Dataset.raw_flatten_generator, flattenLoop]),
   (generator_matches_declared exDsBatch).2.2.2 rfl
      [Except.ok (SubgraphsPull.homo exHomoPull none)]
      (fun sg hsg => by
        simp only [List.mem_singleton, Except.ok.injEq] at hsg
        subst hsg
        exact ⟨rfl, rfl, by decide, trivial⟩) _
      (by simp [Dataset.batchgraph_flatten_generator, flattenLoop])⟩

/-- C5: for both generators, each pull that succeeds yields exactly one flattened
tuple, and the first pull on which the source raises the stream-exhaustion signal
terminates the generator permanently with no further output and no retry
(pulls after the signal are never consumed); exhaustion is the loop's normal
break, not an error. -/
theorem generator_exhaustion {α : Type} (ds : Dataset α) :
    (∀ (pre post : List (Except Unit (String → Nat → α))),
      (∀ x ∈ pre, ∃ v, x = Except.ok v) →
      ds.raw_flatten_generator (pre ++ Except.error () :: post)
          = ds.raw_flatten_generator pre ∧
        (ds.raw_flatten_generator pre).length = pre.length) ∧
    (∀ (pre post : List (Except Unit (SubgraphsPull α))),
      (∀ x ∈ pre, ∃ v, x = Except.ok v) →
      ds.batchgraph_flatten_generator (pre ++ Except.error () :: post)
          = ds.batchgraph_flatten_generator pre ∧
        (ds.batchgraph_flatten_generator pre).length = pre.length) :=
  ⟨fun pre post h => flattenLoop_break _ () post pre h,
   fun pre post h => flattenLoop_break _ () post pre h⟩

theorem generator_exhaustion_witness :
    exDsRaw.raw_flatten_generator
        ([Except.ok exRawData] ++ Except.error () :: [Except.ok exRawData])
      = exDsRaw.raw_flatten_generator [Except.ok exRawData] ∧
    (exDsRaw.raw_flatten_generator [Except.ok exRawData]).length = 1 :=
  (generator_exhaustion exDsRaw).1 [Except.ok exRawData] [Except.ok exRawData]
    (fun x hx => by
      simp only [List.mem_singleton] at hx
      exact ⟨exRawData, hx⟩)

/-- C8: `get_egograph` in explicit mode fails with an invalid-argument condition if
the (truthy) neighbors argument is not a list, or if any successive neighbor alias
is not a direct positive-or-negative downstream of its predecessor; on a valid
chain it classifies each hop as an edge-hop or node-hop according to the
predecessor's kind and records a neighbor count (from the node's shape metadata)
only for node-hops. -/
theorem get_egograph_explicit_spec {α : Type} (ds : Dataset α) (fuel : Nat)
    (src : String) :
    ds.get_egograph fuel src (NeighborsArg.otherArg true)
        = some (Except.error "neighbors should be a list of alias") ∧
    (∀ l : List String, l ≠ [] →
      (chainValid ds.dag (ds.dag.get_node src) l = true →
        ds.get_egograph fuel src (NeighborsArg.listArg l)
          = some (Except.ok ⟨src, (chainHops ds.dag (ds.dag.get_node src) l).1,
              (chainHops ds.dag (ds.dag.get_node src) l).2.1,
              (chainHops ds.dag (ds.dag.get_node src) l).2.2⟩)) ∧
      (chainValid ds.dag (ds.dag.get_node src) l = false →
        ∃ msg, ds.get_egograph fuel src (NeighborsArg.listArg l)
          = some (Except.error msg))) := by
  constructor
  · rfl
  · intro l hl
    have htr : (NeighborsArg.listArg l).truthy = true := by
      simp [NeighborsArg.truthy, hl]
    constructor
    · intro hv
      simp only [Dataset.get_egograph, htr]
      rw [egoExplicitLoop_ok ds.dag l (ds.dag.get_node src) [] [] [] hv]
      simp
    · intro hv
      obtain ⟨msg, hm⟩ :=
        egoExplicitLoop_err ds.dag l (ds.dag.get_node src) [] [] [] hv
      refine ⟨msg, ?_⟩
      simp only [Dataset.get_egograph, htr]
      rw [hm]
      simp

theorem get_egograph_explicit_spec_witness :
    (chainValid exDag (exDag.get_node "src") ["e1", "n1"] = true) ∧
    (exDsRaw.get_egograph 5 "src" (NeighborsArg.listArg ["e1", "n1"])
      = some (Except.ok ⟨"src", ["e1"], ["n1"], [10]⟩)) ∧
    (chainValid exDag (exDag.get_node "src") ["n1"] = false) ∧
    (∃ msg, exDsRaw.get_egograph 5 "src" (NeighborsArg.listArg ["n1"])
      = some (Except.error msg)) := by
  refine ⟨by decide, ?_, by decide, ?_⟩
  · rw [((get_egograph_explicit_spec exDsRaw 5 "src").2 ["e1", "n1"]
      (by decide)).1 (by decide)]
    rfl
  · exact ((get_egograph_explicit_spec exDsRaw 5 "src").2 ["n1"]
      (by decide)).2 (by decide)

/-- C9: `get_egograph` in automatic mode follows the chain of positive downstreams
from the centric alias; on a chain with exactly one positive downstream at every
hop it succeeds with hop count equal to chain depth, and it fails with an
invalid-argument condition as soon as a node on the chain has more than one
positive downstream. -/
theorem get_egograph_auto_spec {α : Type} (ds : Dataset α) (src : String)
    (chain : List String) (fuel : Nat) :
    (posChain ds.dag src chain = true → chain.length ≤ fuel →
      ∃ g, ds.get_egograph fuel src NeighborsArg.noneArg = some (Except.ok g) ∧
        g.nbr_nodes.length + g.nbr_edges.length = chain.length) ∧
    (posChainPrefix ds.dag src chain = true →
      2 ≤ (ds.dag.get_node (chainEnd src chain)).pos_downstreams.length →
      chain.length ≤ fuel →
      ∃ msg, ds.get_egograph fuel src NeighborsArg.noneArg
        = some (Except.error msg)) := by
  constructor
  · intro hc hf
    obtain ⟨⟨n, e, m⟩, hr, hlen⟩ :=
      egoAutoLoop_ok ds.dag src chain fuel src [] [] [] hc hf
    refine ⟨⟨src, n, e, m⟩, ?_, by simpa using hlen⟩
    simp only [Dataset.get_egograph]
    rw [hr]
    simp [NeighborsArg.truthy]
  · intro hc h2 hf
    obtain ⟨msg, hr⟩ := egoAutoLoop_err ds.dag src chain fuel src [] [] [] hc h2 hf
    refine ⟨msg, ?_⟩
    simp only [Dataset.get_egograph]
    rw [hr]
    simp [NeighborsArg.truthy]

theorem get_egograph_auto_spec_witness :
    (posChain exDag "src" ["e1", "n1", "n2"] = true) ∧
    (∃ g, exDsRaw.get_egograph 5 "src" NeighborsArg.noneArg
        = some (Except.ok g) ∧
      g.nbr_nodes.length + g.nbr_edges.length = 3) ∧
    (2 ≤ (exDagBranch.get_node "src").pos_downstreams.length) ∧
    (∃ msg, exDsBranch.get_egograph 5 "src" NeighborsArg.noneArg
      = some (Except.error msg)) := by
  refine ⟨by decide, ?_, by decide, ?_⟩
  · exact (get_egograph_auto_spec exDsRaw "src" ["e1", "n1", "n2"] 5).1
      (by decide) (by decide)
  · exact (get_egograph_auto_spec exDsBranch "src" [] 5).2
      (by decide) (by decide) (by decide)

/-- C10: calling `get_egograph` with an empty list as the neighbors argument behaves
exactly like the automatic mode (the empty list is falsy, so it is treated as no
neighbors supplied): it does not produce a zero-hop explicit EgoGraph, and it can
still fail with the automatic-mode ambiguity invalid-argument condition. -/
theorem get_egograph_empty_list_auto :
    (∀ (α : Type) (ds : Dataset α) (fuel : Nat) (src : String),
      ds.get_egograph fuel src (NeighborsArg.listArg [])
        = ds.get_egograph fuel src NeighborsArg.noneArg) ∧
    (∃ msg, exDsBranch.get_egograph 5 "src" (NeighborsArg.listArg [])
      = some (Except.error msg)) := by
  constructor
  · intro α ds fuel src
    rfl
  · exact ⟨"Can not automatically find neighbors for " ++ "src"
      ++ ", which has multiple downstreams. You should assign"
      ++ " specific neighbors for " ++ "src" ++ ".", rfl⟩

theorem batchgraph_hetero_rule_witness :
    (exDsBatch.get_batchgraph SubKeys.POS_SRC = Except.ok (some
      ⟨false, [0, 1, 2, 3, 4, 5, 6], NodeSchema.homo "item" exDecoder, none,
        ["extra"]⟩)) ∧
    (NodeSchema.homo "item" exDecoder
      = NodeSchema.homo (exDsBatch.dag.get_node SubKeys.POS_SRC).ntype
          (exDsBatch.dag.get_node SubKeys.POS_SRC).decoder) := by
  have h : exDsBatch.get_batchgraph SubKeys.POS_SRC = Except.ok (some
      ⟨false, [0, 1, 2, 3, 4, 5, 6], NodeSchema.homo "item" exDecoder, none,
        ["extra"]⟩) := rfl
  exact ⟨h, by
    have := ((batchgraph_hetero_rule exDsBatch _ h).2.1 rfl).1
    exact this ▸ rfl⟩

end GraphLearn
